import Mathlib

/-!
# Verification of the voicepeak-mcp request-serialization core

Shallow embedding of the request-serialization and process-supervision
subsystem of the `voicepeak-mcp` repository:

* `SynthesisQueue` (src/unnamed/part_008): FIFO job queue with a
  boolean drain guard, `addToQueue`, `processQueue`, `processSingleItem`,
  `clear`.
* `ProcessManager` (src/src/process-manager.ts): admission-controlled
  process spawning with timeout/kill escalation.
* `NarratorCache` (src/src/narrator-cache.ts): TTL cache with
  single-flight fetch deduplication and `isValidNarrator`.
* `TempFileManager` (src/src/temp-file-manager.ts): temporary-artifact
  tracking, `create` and `cleanup`.
* The synthesis retry loop (src/unnamed/part_003, `synthesizeSafe`).

JavaScript runs a single logical thread with suspension points at
`await` boundaries; stateful components are embedded as explicit state
types with a step function, interleavings being modelled as lists of
actions applied to the state.  Machine behaviour that the source relies
on (JS truthiness, Node's `subprocess.killed` flag) is modelled per the
platform documentation and noted where it matters.
-/

/-- `VoicepeakError` (src/unnamed/part_005): an error with a message
and an `ErrorCode` string. The `details` payload is not needed by any
claim and is omitted. -/
structure VoicepeakError where
  message : String
  code : String
deriving DecidableEq, Repr

/-- String constants of the `ErrorCode` union (src/unnamed/part_005). -/
def ErrorCode.QUEUE_CLEARED : String := "QUEUE_CLEARED"

def ErrorCode.TOO_MANY_PROCESSES : String := "TOO_MANY_PROCESSES"

def ErrorCode.PROCESS_TIMEOUT : String := "PROCESS_TIMEOUT"

def ErrorCode.SYNTHESIS_FAILED : String := "SYNTHESIS_FAILED"

/-! ## SynthesisQueue (src/unnamed/part_008, lines 418-499)

A queue item carries an `execute` thunk and `resolve`/`reject`
continuations.  In the embedding a job is identified by its submission
index (`Nat`); the eventual outcome of its `execute` thunk is given by
an environment `beh : Nat → Except VoicepeakError String` (the thunk
either returns a string or throws).  Firing a continuation is recorded
in a `settled` trace. -/

/-- The settlement of a job's promise: `resolve(v)` or `reject(e)`. -/
inductive Outcome where
  | resolved (v : String)
  | rejected (e : VoicepeakError)
deriving DecidableEq, Repr

/-- `processSingleItem` (part_008 lines 467-476): run `execute`; on a
normal result call `resolve`, on a thrown error call `reject`. -/
def processSingleItem : Except VoicepeakError String → Outcome
  | .ok v => .resolved v
  | .error e => .rejected e

/-- State of a `SynthesisQueue` instance together with the trace of
fired continuations.  `queue` holds the ids of pending (not yet
started) jobs in FIFO order, `running` the id of the job currently
being awaited by the drain loop (at most one, which is exactly what
claim C1 proves), `settled` the continuations fired so far in firing
order, and `nextId` numbers submissions. -/
structure SQState where
  queue : List Nat
  isProcessing : Bool
  running : List Nat
  settled : List (Nat × Outcome)
  nextId : Nat
deriving DecidableEq, Repr

/-- A fresh `SynthesisQueue`. -/
def sqInit : SQState := ⟨[], false, [], [], 0⟩

/-- The interleaving points of the queue code at `await` granularity:
`submit` is a call to `addToQueue` (synchronously pushes the job and
calls `processQueue`); `beginJob` is the drain loop shifting the head
item and invoking its `execute`; `endJob` is the completion of the
awaited `execute` together with the firing of the item's continuation;
`endDrain` is the drain loop observing an empty queue and resetting
`isProcessing`; `clear` is a call to `clear()`. -/
inductive SQAction where
  | submit
  | beginJob
  | endJob
  | endDrain
  | clear
deriving DecidableEq, Repr

/-- `addToQueue` (part_008 lines 433-442): push the item, then call
`processQueue`, whose synchronous prefix either returns at the
reentrancy guard (`isProcessing` true) or sets `isProcessing` to
true.  The pushed queue is never empty, so the guard's emptiness test
cannot fire here. -/
def addToQueue (s : SQState) : SQState :=
  let s' : SQState := { s with queue := s.queue ++ [s.nextId], nextId := s.nextId + 1 }
  if s'.isProcessing then s' else { s' with isProcessing := true }

/-- `clear` (part_008 lines 491-499): reject every pending item with a
`QUEUE_CLEARED` error, then empty the queue.  The running item was
already shifted out of `queue` by the drain loop and is untouched;
`isProcessing` is not reset. -/
def clearQueue (s : SQState) : SQState :=
  { s with
    settled := s.settled ++ s.queue.map (fun j =>
      (j, Outcome.rejected ⟨"Queue cleared", ErrorCode.QUEUE_CLEARED⟩))
    queue := [] }

/-- One step of the queue at an interleaving point.  An action whose
guard does not hold (e.g. `beginJob` while a job is still running) is
not enabled and leaves the state unchanged. -/
def sqApply (beh : Nat → Except VoicepeakError String) (s : SQState) : SQAction → SQState
  | .submit => addToQueue s
  | .beginJob =>
    match s.queue, s.running, s.isProcessing with
    | j :: rest, [], true => { s with queue := rest, running := [j] }
    | _, _, _ => s
  | .endJob =>
    match s.running with
    | [j] => { s with running := [], settled := s.settled ++ [(j, processSingleItem (beh j))] }
    | _ => s
  | .endDrain =>
    if s.isProcessing ∧ s.running = [] ∧ s.queue = [] then
      { s with isProcessing := false }
    else s
  | .clear => clearQueue s

/-- Run a sequence of interleaved actions from a fresh queue. -/
def sqRun (beh : Nat → Except VoicepeakError String) (acts : List SQAction) : SQState :=
  acts.foldl (sqApply beh) sqInit

/-- Inductive invariant of the queue under all actions except `clear`:
submission ids settle/run/pend in exactly submission order, at most
one job is mid-execution, a quiescent queue is empty, and every fired
continuation carries its own job's result. -/
def SQInv (beh : Nat → Except VoicepeakError String) (s : SQState) : Prop :=
  s.settled.map Prod.fst ++ s.running ++ s.queue = List.range s.nextId
  ∧ s.running.length ≤ 1
  ∧ (s.isProcessing = false → s.running = [] ∧ s.queue = [])
  ∧ ∀ p ∈ s.settled, p.2 = processSingleItem (beh p.1)

lemma sqInv_init (beh : Nat → Except VoicepeakError String) : SQInv beh sqInit := by
  simp [SQInv, sqInit]

lemma sqInv_step (beh : Nat → Except VoicepeakError String) (s : SQState) (a : SQAction)
    (ha : a ≠ SQAction.clear) (h : SQInv beh s) : SQInv beh (sqApply beh s a) := by
  obtain ⟨h1, h2, h3, h4⟩ := h
  cases a with
  | submit =>
    simp only [sqApply, addToQueue]
    split
    · rename_i hp
      refine ⟨?_, h2, by simp [hp], ?_⟩
      · simp only [List.range_succ, ← h1]
        simp
      · simpa using h4
    · refine ⟨?_, h2, by simp, ?_⟩
      · simp only [List.range_succ, ← h1]
        simp
      · simpa using h4
  | beginJob =>
    simp only [sqApply]
    split
    · rename_i j rest hq hr hp
      refine ⟨?_, by simp, by simp [hp], ?_⟩
      · rw [← h1, hq, hr]
        simp
      · simpa using h4
    · exact ⟨h1, h2, h3, h4⟩
  | endJob =>
    simp only [sqApply]
    split
    · rename_i j hr
      constructor
      · rw [← h1, hr]
        simp
      refine ⟨by simp, ?_, ?_⟩
      · intro hp
        rcases h3 hp with ⟨hr0, _⟩
        rw [hr] at hr0
        exact absurd hr0 (by simp)
      · intro p hp
        rcases List.mem_append.mp hp with hp | hp
        · exact h4 p hp
        · simp at hp
          simp [hp]
    · exact ⟨h1, h2, h3, h4⟩
  | endDrain =>
    simp only [sqApply]
    split
    · rename_i hg
      exact ⟨h1, h2, fun _ => ⟨hg.2.1, hg.2.2⟩, h4⟩
    · exact ⟨h1, h2, h3, h4⟩
  | clear => exact absurd rfl ha

lemma sqInv_run (beh : Nat → Except VoicepeakError String) (acts : List SQAction)
    (hnc : SQAction.clear ∉ acts) : SQInv beh (sqRun beh acts) := by
  suffices h : ∀ s, SQInv beh s → SQInv beh (acts.foldl (sqApply beh) s) by
    exact h sqInit (sqInv_init beh)
  induction acts with
  | nil => intro s hs; simpa using hs
  | cons a rest ih =>
    intro s hs
    simp only [List.foldl_cons]
    have hna : a ≠ SQAction.clear := by
      intro h; exact hnc (h ▸ List.mem_cons_self a rest)
    exact ih (fun h => hnc (List.mem_cons_of_mem a h)) _ (sqInv_step beh s a hna hs)

/-- **C1.** For every sequence of interleaved submissions and drain
steps on a fresh `SynthesisQueue` (no `clear`), the ids of settled,
running and pending jobs — in that order — are exactly the submission
ids in submission order (so continuations fire in FIFO submission
order), at most one job is ever mid-execution, and every settled
continuation carries the result of its own job's `execute`. -/
theorem C1_queue_executes_fifo (beh : Nat → Except VoicepeakError String)
    (acts : List SQAction) (hnc : SQAction.clear ∉ acts) :
    (sqRun beh acts).settled.map Prod.fst ++ (sqRun beh acts).running
        ++ (sqRun beh acts).queue = List.range (sqRun beh acts).nextId
    ∧ (sqRun beh acts).running.length ≤ 1
    ∧ ∀ p ∈ (sqRun beh acts).settled, p.2 = processSingleItem (beh p.1) := by
  obtain ⟨h1, h2, _, h4⟩ := sqInv_run beh acts hnc
  exact ⟨h1, h2, h4⟩

/-- Witness for C1: three jobs submitted concurrently (all three
`addToQueue` calls land before any job finishes) resolve as
`result1`, `result2`, `result3` in submission order. -/
theorem C1_queue_executes_fifo_witness :
    (SQAction.clear ∉ [SQAction.submit, SQAction.submit, SQAction.submit,
        SQAction.beginJob, SQAction.endJob, SQAction.beginJob, SQAction.endJob,
        SQAction.beginJob, SQAction.endJob, SQAction.endDrain])
    ∧ ((sqRun (fun n => Except.ok ("result" ++ toString (n + 1)))
          [SQAction.submit, SQAction.submit, SQAction.submit,
           SQAction.beginJob, SQAction.endJob, SQAction.beginJob, SQAction.endJob,
           SQAction.beginJob, SQAction.endJob, SQAction.endDrain]).settled.map Prod.fst
        ++ (sqRun (fun n => Except.ok ("result" ++ toString (n + 1)))
          [SQAction.submit, SQAction.submit, SQAction.submit,
           SQAction.beginJob, SQAction.endJob, SQAction.beginJob, SQAction.endJob,
           SQAction.beginJob, SQAction.endJob, SQAction.endDrain]).running
        ++ (sqRun (fun n => Except.ok ("result" ++ toString (n + 1)))
          [SQAction.submit, SQAction.submit, SQAction.submit,
           SQAction.beginJob, SQAction.endJob, SQAction.beginJob, SQAction.endJob,
           SQAction.beginJob, SQAction.endJob, SQAction.endDrain]).queue
        = List.range (sqRun (fun n => Except.ok ("result" ++ toString (n + 1)))
          [SQAction.submit, SQAction.submit, SQAction.submit,
           SQAction.beginJob, SQAction.endJob, SQAction.beginJob, SQAction.endJob,
           SQAction.beginJob, SQAction.endJob, SQAction.endDrain]).nextId
      ∧ (sqRun (fun n => Except.ok ("result" ++ toString (n + 1)))
          [SQAction.submit, SQAction.submit, SQAction.submit,
           SQAction.beginJob, SQAction.endJob, SQAction.beginJob, SQAction.endJob,
           SQAction.beginJob, SQAction.endJob, SQAction.endDrain]).running.length ≤ 1
      ∧ ∀ p ∈ (sqRun (fun n => Except.ok ("result" ++ toString (n + 1)))
          [SQAction.submit, SQAction.submit, SQAction.submit,
           SQAction.beginJob, SQAction.endJob, SQAction.beginJob, SQAction.endJob,
           SQAction.beginJob, SQAction.endJob, SQAction.endDrain]).settled,
          p.2 = processSingleItem ((fun n => Except.ok ("result" ++ toString (n + 1))) p.1)) :=
  ⟨by decide, C1_queue_executes_fifo _ _ (by decide)⟩

/-- **C4.** `clear()` rejects exactly the pending, not-yet-started jobs,
each with a `QUEUE_CLEARED` cancellation error, and leaves the
mid-execution job (if any) untouched, so that its continuation still
fires with its own result afterwards; `clear()` on an empty queue is a
no-op; and a job submitted after `clear()` is accepted and is executed
by a later drain, settling with its own outcome (the queue is
reusable). -/
theorem C4_clear_rejects_only_pending (beh : Nat → Except VoicepeakError String)
    (s : SQState) (hrun : s.running = [] ∨ ∃ j, s.running = [j]) :
    (clearQueue s).settled = s.settled ++ s.queue.map (fun j =>
        (j, Outcome.rejected ⟨"Queue cleared", ErrorCode.QUEUE_CLEARED⟩))
    ∧ (clearQueue s).queue = []
    ∧ (clearQueue s).running = s.running
    ∧ (∀ j, s.running = [j] →
        sqApply beh (clearQueue s) SQAction.endJob
          = { clearQueue s with
                running := []
                settled := (clearQueue s).settled ++ [(j, processSingleItem (beh j))] })
    ∧ (s.queue = [] → clearQueue s = s)
    ∧ ∃ acts : List SQAction,
        (s.nextId, processSingleItem (beh s.nextId))
          ∈ (acts.foldl (sqApply beh) (sqApply beh (clearQueue s) SQAction.submit)).settled := by
  refine ⟨rfl, rfl, rfl, ?_, ?_, ?_⟩
  · intro j hj
    simp [sqApply, clearQueue, hj]
  · intro hq
    cases s
    simp_all [clearQueue]
  · rcases hrun with hr | ⟨j0, hr⟩
    · refine ⟨[SQAction.beginJob, SQAction.endJob], ?_⟩
      cases hip : s.isProcessing <;>
        simp [sqApply, addToQueue, clearQueue, hr, hip]
    · refine ⟨[SQAction.endJob, SQAction.beginJob, SQAction.endJob], ?_⟩
      cases hip : s.isProcessing <;>
        simp [sqApply, addToQueue, clearQueue, hr, hip]

/-- Witness for C4: a queue with job 0 mid-execution and jobs 1, 2
pending. -/
theorem C4_clear_rejects_only_pending_witness :
    ((⟨[1, 2], true, [0], [], 3⟩ : SQState).running = [] ∨
        ∃ j, (⟨[1, 2], true, [0], [], 3⟩ : SQState).running = [j])
    ∧ ((clearQueue ⟨[1, 2], true, [0], [], 3⟩).settled
        = [] ++ [1, 2].map (fun j =>
            (j, Outcome.rejected ⟨"Queue cleared", ErrorCode.QUEUE_CLEARED⟩))
      ∧ (clearQueue ⟨[1, 2], true, [0], [], 3⟩).queue = []
      ∧ (clearQueue ⟨[1, 2], true, [0], [], 3⟩).running = [0]
      ∧ (∀ j, ([0] : List Nat) = [j] →
          sqApply (fun n => Except.ok (toString n)) (clearQueue ⟨[1, 2], true, [0], [], 3⟩)
              SQAction.endJob
            = { clearQueue ⟨[1, 2], true, [0], [], 3⟩ with
                  running := []
                  settled := (clearQueue ⟨[1, 2], true, [0], [], 3⟩).settled
                    ++ [(j, processSingleItem ((fun n => Except.ok (toString n)) j))] })
      ∧ (([1, 2] : List Nat) = [] → clearQueue ⟨[1, 2], true, [0], [], 3⟩
            = ⟨[1, 2], true, [0], [], 3⟩)
      ∧ ∃ acts : List SQAction,
          ((3 : Nat), processSingleItem ((fun n => Except.ok (toString n)) 3))
            ∈ (acts.foldl (sqApply (fun n => Except.ok (toString n)))
                (sqApply (fun n => Except.ok (toString n))
                  (clearQueue ⟨[1, 2], true, [0], [], 3⟩) SQAction.submit)).settled) :=
  ⟨Or.inr ⟨0, rfl⟩,
   C4_clear_rejects_only_pending (fun n => Except.ok (toString n))
     ⟨[1, 2], true, [0], [], 3⟩ (Or.inr ⟨0, rfl⟩)⟩

/-- The drain loop of `processQueue` (part_008 lines 447-462) viewed
deterministically over a fixed pending list, when no submission or
clear interleaves: repeatedly `shift` the head item and run
`processSingleItem` on it, collecting the fired continuations in
order. -/
def drainQueue (beh : Nat → Except VoicepeakError String) : List Nat → List (Nat × Outcome)
  | [] => []
  | j :: rest => (j, processSingleItem (beh j)) :: drainQueue beh rest

lemma drainQueue_eq_map (beh : Nat → Except VoicepeakError String) (l : List Nat) :
    drainQueue beh l = l.map (fun j => (j, processSingleItem (beh j))) := by
  induction l with
  | nil => rfl
  | cons j rest ih => simp [drainQueue, ih]

/-- **C5.** A thrown job does not abort the drain loop: draining a
queue `pre ++ jt :: post` where job `jt`'s execution throws `e`
settles every job of `pre`, rejects `jt` with exactly `e`, and still
settles every job of `post` with its own result. -/
theorem C5_throwing_job_does_not_stall (beh : Nat → Except VoicepeakError String)
    (pre post : List Nat) (jt : Nat) (e : VoicepeakError)
    (ht : beh jt = Except.error e) :
    drainQueue beh (pre ++ jt :: post)
      = pre.map (fun j => (j, processSingleItem (beh j)))
        ++ (jt, Outcome.rejected e)
          :: post.map (fun j => (j, processSingleItem (beh j))) := by
  rw [drainQueue_eq_map]
  simp [ht, processSingleItem]

/-- Witness for C5: job 0 throws, job 1 succeeds with `result2`; the
drain rejects job 0 with the thrown error and resolves job 1. -/
theorem C5_throwing_job_does_not_stall_witness :
    ((fun n => if n = 0 then Except.error (⟨"boom", "SYNTHESIS_FAILED"⟩ : VoicepeakError)
        else Except.ok "result2") 0
      = Except.error (⟨"boom", "SYNTHESIS_FAILED"⟩ : VoicepeakError))
    ∧ drainQueue (fun n => if n = 0
          then Except.error (⟨"boom", "SYNTHESIS_FAILED"⟩ : VoicepeakError)
          else Except.ok "result2") ([] ++ 0 :: [1])
        = [].map (fun j => (j, processSingleItem ((fun n => if n = 0
            then Except.error (⟨"boom", "SYNTHESIS_FAILED"⟩ : VoicepeakError)
            else Except.ok "result2") j)))
          ++ (0, Outcome.rejected (⟨"boom", "SYNTHESIS_FAILED"⟩ : VoicepeakError))
            :: [1].map (fun j => (j, processSingleItem ((fun n => if n = 0
              then Except.error (⟨"boom", "SYNTHESIS_FAILED"⟩ : VoicepeakError)
              else Except.ok "result2") j))) :=
  ⟨rfl,
   C5_throwing_job_does_not_stall _ [] [1] 0 ⟨"boom", "SYNTHESIS_FAILED"⟩ rfl⟩

/-! ## ProcessManager (src/src/process-manager.ts)

`ProcessManager` keeps a `Set` of active child processes and an
admission cap `maxConcurrent` (default `CONFIG.PROCESS.MAX_CONCURRENT
= 5`).  Each spawn creates a fresh process object, modelled by a fresh
`Nat` pid drawn from a counter; the `Set` is modelled as the list of
live pids.  `spawn` throws `TOO_MANY_PROCESSES` before registering
anything when the cap is reached; the `finally` clause deletes the
process from the set when its promise settles. -/

/-- `CONFIG.PROCESS.MAX_CONCURRENT` (src/src/narrator-cache.ts types
section, `CONFIG`): the default admission cap. -/
def MAX_CONCURRENT : Nat := 5

/-- State of a `ProcessManager`: live processes, fresh-pid counter and
the configured cap. -/
structure PMState where
  activeProcesses : List Nat
  nextPid : Nat
  maxConcurrent : Nat
deriving DecidableEq, Repr

/-- A fresh `ProcessManager` with cap `max`. -/
def pmInit (max : Nat) : PMState := ⟨[], 0, max⟩

/-- The admission check at the top of `spawn`
(process-manager.ts lines 28-33): when the cap is reached the call
throws a `TOO_MANY_PROCESSES` error immediately. -/
def spawnAdmission (s : PMState) : Except VoicepeakError Unit :=
  if s.activeProcesses.length ≥ s.maxConcurrent then
    Except.error ⟨"Too many concurrent processes (max "
      ++ toString s.maxConcurrent ++ ")", ErrorCode.TOO_MANY_PROCESSES⟩
  else Except.ok ()

/-- Interleaving points of the manager: `spawnStart` is a call to
`spawn` up to its first `await` (admission check, then
`activeProcesses.add(proc)`); `procSettle pid` is the settlement of
that spawn's promise, whose `finally` clause runs
`activeProcesses.delete(proc)`. -/
inductive PMAction where
  | spawnStart
  | procSettle (pid : Nat)
deriving DecidableEq, Repr

/-- One step of the `ProcessManager` state. A rejected admission
leaves the state unchanged (the error is thrown before any
registration). -/
def pmApply (s : PMState) : PMAction → PMState
  | .spawnStart =>
    match spawnAdmission s with
    | .error _ => s
    | .ok _ => { s with activeProcesses := s.activeProcesses ++ [s.nextPid],
                        nextPid := s.nextPid + 1 }
  | .procSettle pid => { s with activeProcesses := s.activeProcesses.erase pid }

/-- Run a sequence of interleaved actions from a fresh manager. -/
def pmRun (max : Nat) (acts : List PMAction) : PMState :=
  acts.foldl pmApply (pmInit max)

lemma pmRun_le (max : Nat) (acts : List PMAction) :
    (pmRun max acts).activeProcesses.length ≤ max ∧ (pmRun max acts).maxConcurrent = max := by
  suffices h : ∀ s : PMState, s.activeProcesses.length ≤ s.maxConcurrent →
      (acts.foldl pmApply s).activeProcesses.length ≤ (acts.foldl pmApply s).maxConcurrent
      ∧ (acts.foldl pmApply s).maxConcurrent = s.maxConcurrent by
    constructor
    · calc (pmRun max acts).activeProcesses.length
          ≤ (pmRun max acts).maxConcurrent := (h (pmInit max) (by simp [pmInit])).1
        _ = max := (h (pmInit max) (by simp [pmInit])).2
    · exact (h (pmInit max) (by simp [pmInit])).2
  induction acts with
  | nil => intro s hs; exact ⟨hs, rfl⟩
  | cons a rest ih =>
    intro s hs
    simp only [List.foldl_cons]
    have hstep : (pmApply s a).activeProcesses.length ≤ (pmApply s a).maxConcurrent
        ∧ (pmApply s a).maxConcurrent = s.maxConcurrent := by
      cases a with
      | spawnStart =>
        simp only [pmApply, spawnAdmission]
        split
        · rename_i heq
          split at heq
          · exact ⟨hs, rfl⟩
          · exact absurd heq (by simp)
        · rename_i heq
          split at heq
          · exact absurd heq (by simp)
          · rename_i hlt
            refine ⟨?_, rfl⟩
            simp only [List.length_append, List.length_cons, List.length_nil]
            omega
      | procSettle pid =>
        refine ⟨le_trans (List.length_erase_le _ _) hs, rfl⟩
    rcases ih (pmApply s a) hstep.1 with ⟨ih1, ih2⟩
    exact ⟨ih1, ih2.trans hstep.2⟩

/-- **C3.** In every execution of `ProcessManager` the number of live
processes never exceeds the configured cap; a `spawn` arriving while
the cap is reached fails immediately with a `TOO_MANY_PROCESSES`
admission error and changes nothing (no queueing, live set
untouched); and the default cap is 5. -/
theorem C3_admission_cap (max : Nat) (acts : List PMAction) :
    (pmRun max acts).activeProcesses.length ≤ max
    ∧ (∀ s : PMState, s.activeProcesses.length = s.maxConcurrent →
        spawnAdmission s = Except.error ⟨"Too many concurrent processes (max "
            ++ toString s.maxConcurrent ++ ")", ErrorCode.TOO_MANY_PROCESSES⟩
          ∧ pmApply s PMAction.spawnStart = s)
    ∧ MAX_CONCURRENT = 5 := by
  refine ⟨(pmRun_le max acts).1, ?_, rfl⟩
  intro s hs
  have hge : s.activeProcesses.length ≥ s.maxConcurrent := le_of_eq hs.symm
  constructor
  · simp [spawnAdmission, hge]
  · simp [pmApply, spawnAdmission, hge]

/-- Witness for C3: with the default cap 5, five spawns fill the
manager and the state rejecting a sixth spawn is unchanged by it. -/
theorem C3_admission_cap_witness :
    (pmRun 5 [PMAction.spawnStart, PMAction.spawnStart, PMAction.spawnStart,
        PMAction.spawnStart, PMAction.spawnStart,
        PMAction.spawnStart]).activeProcesses.length ≤ 5
    ∧ ((⟨[0, 1, 2, 3, 4], 5, 5⟩ : PMState).activeProcesses.length
          = (⟨[0, 1, 2, 3, 4], 5, 5⟩ : PMState).maxConcurrent
        ∧ spawnAdmission ⟨[0, 1, 2, 3, 4], 5, 5⟩
            = Except.error ⟨"Too many concurrent processes (max "
                ++ toString (⟨[0, 1, 2, 3, 4], 5, 5⟩ : PMState).maxConcurrent ++ ")",
                ErrorCode.TOO_MANY_PROCESSES⟩
        ∧ pmApply ⟨[0, 1, 2, 3, 4], 5, 5⟩ PMAction.spawnStart = ⟨[0, 1, 2, 3, 4], 5, 5⟩) :=
  ⟨(C3_admission_cap 5 _).1,
   by decide,
   (C3_admission_cap 5 []).2.1 ⟨[0, 1, 2, 3, 4], 5, 5⟩ (by decide)⟩

/-! ### Timeout escalation (process-manager.ts lines 43-51)

The timeout timer sends `SIGTERM`; an inner 5-second timer then sends
`SIGKILL` guarded by `if (proc.killed === false)`.  Per the Node.js
child_process documentation, `subprocess.killed` is set to `true` as
soon as `subprocess.kill()` successfully *sends* a signal — it does
not indicate that the process has exited.  The model below embeds
exactly that semantics: `procKill` succeeds (and sets the flag) iff
the process is still alive. -/

inductive Signal where
  | sigterm
  | sigkill
deriving DecidableEq, Repr

/-- A spawned child process as seen by the escalation code: whether it
is still running, Node's `killed` flag, and the signals delivered to
it. -/
structure ChildProc where
  alive : Bool
  killed : Bool
  received : List Signal
deriving DecidableEq, Repr

/-- `proc.kill(sig)` (Node semantics): if the process still exists the
signal is sent and `proc.killed` becomes `true`; on a dead process the
send fails and nothing changes. -/
def procKill (p : ChildProc) (sig : Signal) : ChildProc :=
  if p.alive then { p with killed := true, received := p.received ++ [sig] } else p

/-- The timeout timer callback (process-manager.ts line 44):
`proc.kill("SIGTERM")`. -/
def timeoutFire (p : ChildProc) : ChildProc := procKill p Signal.sigterm

/-- The inner 5-second grace timer callback (process-manager.ts lines
46-50): `if (proc.killed === false) proc.kill("SIGKILL")`. -/
def graceFire (p : ChildProc) : ChildProc :=
  if p.killed = false then procKill p Signal.sigkill else p

/-- Modelled from the spec: the intended grace-period escalation — "if
it has not exited after a fixed grace period (5 seconds), it receives
a forceful kill signal" — i.e. the guard tests whether the process has
exited, not whether a signal was already sent. Stated only as the
contrast point for claim C7; the authoritative code model is
`graceFire`. -/
def graceFireIntended (p : ChildProc) : ChildProc :=
  if p.alive then procKill p Signal.sigkill else p

/-- **C7 (refuting evaluation).** A process that ignores `SIGTERM` and
is still alive when the 5-second grace timer fires never receives
`SIGKILL` from the code: the `SIGTERM` send already set Node's
`proc.killed` flag, so the `proc.killed === false` guard is false and
the escalation is skipped, while the specified behaviour
(`graceFireIntended`) would deliver `SIGKILL`. -/
theorem C7_grace_kill_never_fires :
    (graceFire (timeoutFire ⟨true, false, []⟩)).received = [Signal.sigterm]
    ∧ (graceFire (timeoutFire ⟨true, false, []⟩)).alive = true
    ∧ Signal.sigkill ∉ (graceFire (timeoutFire ⟨true, false, []⟩)).received
    ∧ (graceFireIntended (timeoutFire ⟨true, false, []⟩)).received
        = [Signal.sigterm, Signal.sigkill] := by
  decide

/-! ## NarratorCache (src/src/narrator-cache.ts)

The cache keeps `narrators : Set<string> | null`, `lastFetch`, a TTL
of 5 minutes and a single-flight `fetchPromise`.  JS truthiness
matters twice in this file: `this.narrators` is truthy whenever it is
non-null — an *empty* `Set` is an object and hence truthy — and in
`isValidNarrator` the test `!narrator` is true both for `undefined`
and for the empty string. -/

/-- `CACHE_TTL` (narrator-cache.ts line 10): 5 minutes in ms. -/
def CACHE_TTL : Nat := 5 * 60 * 1000

/-- JS `line.includes("[debug]")`: true iff the marker occurs in the
line (`splitOn` yields more than one piece exactly then). -/
def lineIncludesDebug (line : String) : Bool :=
  (line.splitOn "[debug]").length != 1

/-- The parsing inside `fetchNarrators` (narrator-cache.ts lines
68-72): split stdout on newlines, keep lines that are nonblank after
trimming and do not contain the debug marker, trim them, and drop
empties. -/
def parseNarrators (output : String) : List String :=
  (((output.splitOn "\n").filter
      (fun line => line.trim != "" && !lineIncludesDebug line)).map
    (fun line => line.trim)).filter (fun line => line.length > 0)

/-- `fetchNarrators` (narrator-cache.ts lines 62-80): spawn the CLI
with `--list-narrator` and parse its stdout; the `catch` turns any
error into an empty set ("Return empty set on error - will retry on
next request").  `spawnResult` is the outcome of the
`processManager.spawn` call. -/
def fetchNarrators (spawnResult : Except VoicepeakError String) : List String :=
  match spawnResult with
  | .ok output => parseNarrators output
  | .error _ => []

/-- The cached fields of a `NarratorCache` (sequential view, no fetch
in flight). -/
structure CacheState where
  narrators : Option (List String)
  lastFetch : Nat
deriving DecidableEq, Repr

/-- Result of one sequential `getAvailableNarrators` call: the updated
cache, the returned set, and whether a fetch was issued. -/
structure GetResult where
  state : CacheState
  value : List String
  didFetch : Bool
deriving DecidableEq, Repr

/-- `getAvailableNarrators` (narrator-cache.ts lines 16-39) with no
fetch already in flight: return the cached set if `narrators` is
truthy (non-null — an empty `Set` included) and fresh; otherwise fetch,
store the result with `lastFetch = now`, and return it.  `spawnResult`
is the outcome of the spawn performed if a fetch is issued. -/
def getAvailableNarrators (st : CacheState) (now : Nat)
    (spawnResult : Except VoicepeakError String) : GetResult :=
  match st.narrators with
  | some ns =>
    if now - st.lastFetch < CACHE_TTL then ⟨st, ns, false⟩
    else
      let result := fetchNarrators spawnResult
      ⟨⟨some result, now⟩, result, true⟩
  | none =>
    let result := fetchNarrators spawnResult
    ⟨⟨some result, now⟩, result, true⟩

/-- **C2 (refuting evaluation).** When the underlying fetch fails, the
failure indeed never propagates and an empty set is returned — but the
empty set is *cached* with a fresh `lastFetch`, because an empty
`Set` is truthy; the very next `get()` (1 ms later) serves the cached
empty set without issuing a fetch, contradicting the claim (and the
code's own comment) that the next call retries. -/
theorem C2_failed_fetch_is_cached_not_retried :
    (getAvailableNarrators ⟨none, 0⟩ 0
        (Except.error ⟨"spawn failed", "PROCESS_FAILED"⟩)).didFetch = true
    ∧ (getAvailableNarrators ⟨none, 0⟩ 0
        (Except.error ⟨"spawn failed", "PROCESS_FAILED"⟩)).value = []
    ∧ (getAvailableNarrators ⟨none, 0⟩ 0
        (Except.error ⟨"spawn failed", "PROCESS_FAILED"⟩)).state = ⟨some [], 0⟩
    ∧ (getAvailableNarrators ⟨some [], 0⟩ 1 (Except.ok "Narrator1\n")).didFetch = false
    ∧ (getAvailableNarrators ⟨some [], 0⟩ 1 (Except.ok "Narrator1\n")).value = [] := by
  decide

/-- `isValidNarrator` (narrator-cache.ts lines 53-57): `!narrator`
short-circuits to `true` (the field is optional); otherwise the
narrator must be in the fetched set.  The set the `await
getAvailableNarrators()` call would return is passed explicitly. -/
def isValidNarrator (narrator : Option String) (availableNarrators : List String) : Bool :=
  match narrator with
  | none => true
  | some s => if s = "" then true else availableNarrators.contains s

/-- **C10.** `isValidNarrator` applied to the empty string returns
`true` whatever the fetched narrator set is — the empty string is
falsy in JS, so it takes the optional-field early return and the
cached set is never consulted; in particular an empty-string narrator
is accepted even when absent from the set. -/
theorem C10_empty_string_narrator_always_valid (availableNarrators : List String) :
    isValidNarrator (some "") availableNarrators = true := by
  simp [isValidNarrator]

/-! ### Single-flight behaviour of `getAvailableNarrators` (C8)

Full state of a `NarratorCache` instance across interleaved callers.
A fetch in flight is identified by a serial number (`fetchCount` is
the next serial); callers blocked on `return this.fetchPromise` — and
the initiating caller blocked on `await this.fetchPromise` — are the
`waiting` list.  The promise resolving delivers the *same* result
value to every waiter in one step, after which the initiator's
continuation stores it in `narrators`, stamps `lastFetch` with the
`now` the initiator captured on entry (`fetchStart`), and the
`finally` clears `fetchPromise`.  `clock` records the last observed
`Date.now()`; hypotheses require it to be monotone, as wall-clock
reads are. -/

structure SFState where
  narrators : Option (List String)
  lastFetch : Nat
  fetchPromise : Option Nat
  fetchStart : Nat
  fetchCount : Nat
  waiting : List (Nat × Nat)
  delivered : List (Nat × Option Nat × List String)
  clock : Nat
deriving DecidableEq, Repr

/-- A fresh `NarratorCache`. -/
def sfInit : SFState := ⟨none, 0, none, 0, 0, [], [], 0⟩

/-- Interleaving points: `getCall c now` is a call to
`getAvailableNarrators` by caller `c` running synchronously up to the
point where it awaits (or returns from cache); `fetchResolve r` is the
in-flight spawn settling with outcome `r` (the `catch` in
`fetchNarrators` makes the promise itself always fulfil);
`refreshReset` is the synchronous reset part of `refresh()`
(narrator-cache.ts lines 44-48), whose subsequent internal `get` is a
separate `getCall`. -/
inductive SFAction where
  | getCall (caller now : Nat)
  | fetchResolve (spawnResult : Except VoicepeakError String)
  | refreshReset

/-- The fall-through of `getAvailableNarrators` once the cached-value
fast path has been passed: join the in-flight fetch if there is one,
otherwise start a new fetch and await it. -/
def sfJoinOrStart (s : SFState) (c now : Nat) : SFState :=
  match s.fetchPromise with
  | some f => { s with waiting := s.waiting ++ [(c, f)], clock := now }
  | none =>
    { s with
        fetchPromise := some s.fetchCount
        fetchStart := now
        fetchCount := s.fetchCount + 1
        waiting := s.waiting ++ [(c, s.fetchCount)]
        clock := now }

/-- One step of the cache at an interleaving point. -/
def sfApply (s : SFState) : SFAction → SFState
  | .getCall c now =>
    match s.narrators with
    | some ns =>
      if now - s.lastFetch < CACHE_TTL then
        { s with delivered := s.delivered ++ [(c, none, ns)], clock := now }
      else sfJoinOrStart s c now
    | none => sfJoinOrStart s c now
  | .fetchResolve spawnResult =>
    match s.fetchPromise with
    | none => s
    | some f =>
      { s with
          narrators := some (fetchNarrators spawnResult)
          lastFetch := s.fetchStart
          fetchPromise := none
          waiting := s.waiting.filter (fun p => p.2 != f)
          delivered := s.delivered ++ (s.waiting.filter (fun p => p.2 == f)).map
            (fun p => (p.1, some f, fetchNarrators spawnResult)) }
  | .refreshReset => { s with narrators := none, lastFetch := 0 }

/-- Run a sequence of interleaved actions from a fresh cache. -/
def sfRun (acts : List SFAction) : SFState := acts.foldl sfApply sfInit

/-- Wall-clock monotonicity of a trace: every `Date.now()` read is at
least the previous one (threaded from `t`). -/
def timeMonoFrom : Nat → List SFAction → Prop
  | _, [] => True
  | t, SFAction.getCall _ now :: rest => t ≤ now ∧ timeMonoFrom now rest
  | t, SFAction.fetchResolve _ :: rest => timeMonoFrom t rest
  | t, SFAction.refreshReset :: rest => timeMonoFrom t rest

/-- Inductive invariant: while a fetch is in flight the cache is
invalid (null, or already expired at the last observed clock), so no
later monotone `get()` can take the cached fast path past it. -/
def SFInv (s : SFState) : Prop :=
  s.fetchPromise ≠ none → (s.narrators = none ∨ s.lastFetch + CACHE_TTL ≤ s.clock)

lemma sfInv_init : SFInv sfInit := by
  simp [SFInv, sfInit]

lemma sfJoinOrStart_join (narr : Option (List String)) (lastF f fstart fcount : Nat)
    (wait : List (Nat × Nat)) (deliv : List (Nat × Option Nat × List String))
    (clk c now : Nat) :
    sfJoinOrStart ⟨narr, lastF, some f, fstart, fcount, wait, deliv, clk⟩ c now
      = ⟨narr, lastF, some f, fstart, fcount, wait ++ [(c, f)], deliv, now⟩ := rfl

lemma sfJoinOrStart_start (narr : Option (List String)) (lastF fstart fcount : Nat)
    (wait : List (Nat × Nat)) (deliv : List (Nat × Option Nat × List String))
    (clk c now : Nat) :
    sfJoinOrStart ⟨narr, lastF, none, fstart, fcount, wait, deliv, clk⟩ c now
      = ⟨narr, lastF, some fcount, now, fcount + 1, wait ++ [(c, fcount)], deliv, now⟩ := rfl

lemma sfApply_getCall_none (lastF fstart fcount : Nat) (fp : Option Nat)
    (wait : List (Nat × Nat)) (deliv : List (Nat × Option Nat × List String))
    (clk c now : Nat) :
    sfApply ⟨none, lastF, fp, fstart, fcount, wait, deliv, clk⟩ (SFAction.getCall c now)
      = sfJoinOrStart ⟨none, lastF, fp, fstart, fcount, wait, deliv, clk⟩ c now := rfl

lemma sfApply_getCall_some (ns : List String) (lastF fstart fcount : Nat) (fp : Option Nat)
    (wait : List (Nat × Nat)) (deliv : List (Nat × Option Nat × List String))
    (clk c now : Nat) :
    sfApply ⟨some ns, lastF, fp, fstart, fcount, wait, deliv, clk⟩ (SFAction.getCall c now)
      = if now - lastF < CACHE_TTL
        then ⟨some ns, lastF, fp, fstart, fcount, wait, deliv ++ [(c, none, ns)], now⟩
        else sfJoinOrStart ⟨some ns, lastF, fp, fstart, fcount, wait, deliv, clk⟩ c now := rfl

lemma sfApply_resolve_none (narr : Option (List String)) (lastF fstart fcount : Nat)
    (wait : List (Nat × Nat)) (deliv : List (Nat × Option Nat × List String))
    (clk : Nat) (r : Except VoicepeakError String) :
    sfApply ⟨narr, lastF, none, fstart, fcount, wait, deliv, clk⟩ (SFAction.fetchResolve r)
      = ⟨narr, lastF, none, fstart, fcount, wait, deliv, clk⟩ := rfl

lemma sfApply_resolve_some (narr : Option (List String)) (lastF f fstart fcount : Nat)
    (wait : List (Nat × Nat)) (deliv : List (Nat × Option Nat × List String))
    (clk : Nat) (r : Except VoicepeakError String) :
    sfApply ⟨narr, lastF, some f, fstart, fcount, wait, deliv, clk⟩ (SFAction.fetchResolve r)
      = ⟨some (fetchNarrators r), fstart, none, fstart, fcount,
          wait.filter (fun p => p.2 != f),
          deliv ++ (wait.filter (fun p => p.2 == f)).map
            (fun p => (p.1, some f, fetchNarrators r)), clk⟩ := rfl

lemma sfApply_getCall_clock (s : SFState) (c now : Nat) :
    (sfApply s (SFAction.getCall c now)).clock = now := by
  obtain ⟨narr, lastF, fp, fstart, fcount, wait, deliv, clk⟩ := s
  cases narr with
  | none =>
    rw [sfApply_getCall_none]
    cases fp with
    | none => rw [sfJoinOrStart_start]
    | some f => rw [sfJoinOrStart_join]
  | some ns =>
    rw [sfApply_getCall_some]
    by_cases hfresh : now - lastF < CACHE_TTL
    · rw [if_pos hfresh]
    · rw [if_neg hfresh]
      cases fp with
      | none => rw [sfJoinOrStart_start]
      | some f => rw [sfJoinOrStart_join]

lemma sfInv_step (s : SFState) (a : SFAction) (h : SFInv s)
    (hmono : ∀ c now, a = SFAction.getCall c now → s.clock ≤ now) :
    SFInv (sfApply s a) := by
  have hTTL : 0 < CACHE_TTL := by norm_num [CACHE_TTL]
  obtain ⟨narr, lastF, fp, fstart, fcount, wait, deliv, clk⟩ := s
  cases a with
  | getCall c now =>
    have hcn : clk ≤ now := hmono c now rfl
    cases narr with
    | none =>
      rw [sfApply_getCall_none]
      cases fp with
      | none =>
        rw [sfJoinOrStart_start]
        intro _
        exact Or.inl rfl
      | some f =>
        rw [sfJoinOrStart_join]
        intro _
        exact Or.inl rfl
    | some ns =>
      rw [sfApply_getCall_some]
      by_cases hfresh : now - lastF < CACHE_TTL
      · rw [if_pos hfresh]
        intro hfp
        rcases h hfp with hnone | hexp
        · exact Or.inl hnone
        · right
          have hexp' : lastF + CACHE_TTL ≤ clk := hexp
          show lastF + CACHE_TTL ≤ now
          omega
      · rw [if_neg hfresh]
        cases fp with
        | none =>
          rw [sfJoinOrStart_start]
          intro _
          right
          show lastF + CACHE_TTL ≤ now
          omega
        | some f =>
          rw [sfJoinOrStart_join]
          intro _
          rcases h (by simp) with hnone | hexp
          · exact Or.inl hnone
          · right
            have hexp' : lastF + CACHE_TTL ≤ clk := hexp
            show lastF + CACHE_TTL ≤ now
            omega
  | fetchResolve r =>
    cases fp with
    | none => exact h
    | some f =>
      rw [sfApply_resolve_some]
      intro hfp
      exact absurd rfl hfp
  | refreshReset =>
    intro _
    exact Or.inl rfl

lemma sfInv_run_from (acts : List SFAction) :
    ∀ s, SFInv s → timeMonoFrom s.clock acts → SFInv (acts.foldl sfApply s) := by
  induction acts with
  | nil => intro s hs _; simpa using hs
  | cons a rest ih =>
    intro s hs hm
    simp only [List.foldl_cons]
    cases a with
    | getCall c now =>
      obtain ⟨hle, hm'⟩ := hm
      refine ih _ (sfInv_step s _ hs ?_) ?_
      · intro c' now' heq
        cases heq
        exact hle
      · rw [sfApply_getCall_clock]
        exact hm'
    | fetchResolve r =>
      refine ih _ (sfInv_step s _ hs (by intro c now h; cases h)) ?_
      have hclock : (sfApply s (SFAction.fetchResolve r)).clock = s.clock := by
        obtain ⟨narr, lastF, fp, fstart, fcount, wait, deliv, clk⟩ := s
        cases fp with
        | none => rw [sfApply_resolve_none]
        | some f => rw [sfApply_resolve_some]
      rw [hclock]
      exact hm
    | refreshReset =>
      refine ih _ (sfInv_step s _ hs (by intro c now h; cases h)) ?_
      exact hm

lemma sfInv_run (acts : List SFAction) (hmono : timeMonoFrom 0 acts) :
    SFInv (sfRun acts) :=
  sfInv_run_from acts sfInit sfInv_init hmono

/-- **C8.** In every monotone-clock execution reaching a state with a
fetch in flight, a further `get()` call joins that same in-flight
fetch — the state change is exactly the caller being appended to its
waiters; no second fetch is started (`fetchPromise` and `fetchCount`
are untouched, and `fetchPromise` is a single optional handle, so at
most one fetch is ever in flight) — and when the fetch resolves,
every waiting caller is delivered the identical resulting set in one
step while the cached set is fully replaced by it and the handle is
cleared. -/
theorem C8_single_flight_fetch (acts : List SFAction) (c now f : Nat)
    (hmono : timeMonoFrom 0 acts)
    (hf : (sfRun acts).fetchPromise = some f)
    (hnow : (sfRun acts).clock ≤ now) :
    sfApply (sfRun acts) (SFAction.getCall c now)
      = { sfRun acts with
            waiting := (sfRun acts).waiting ++ [(c, f)]
            clock := now }
    ∧ ∀ spawnResult,
        sfApply (sfRun acts) (SFAction.fetchResolve spawnResult)
          = { sfRun acts with
                narrators := some (fetchNarrators spawnResult)
                lastFetch := (sfRun acts).fetchStart
                fetchPromise := none
                waiting := (sfRun acts).waiting.filter (fun p => p.2 != f)
                delivered := (sfRun acts).delivered
                  ++ ((sfRun acts).waiting.filter (fun p => p.2 == f)).map
                      (fun p => (p.1, some f, fetchNarrators spawnResult)) } := by
  have hinv := sfInv_run acts hmono
  revert hf hnow hinv
  generalize sfRun acts = s
  obtain ⟨narr, lastF, fp, fstart, fcount, wait, deliv, clk⟩ := s
  intro hf hnow hinv
  have hfp : fp = some f := hf
  subst hfp
  have hclk : clk ≤ now := hnow
  constructor
  · cases narr with
    | none => rw [sfApply_getCall_none, sfJoinOrStart_join]
    | some ns =>
      rcases hinv (by simp) with hnone | hexp
      · exact absurd hnone (by simp)
      · have hexp' : lastF + CACHE_TTL ≤ clk := hexp
        have hstale : ¬ (now - lastF < CACHE_TTL) := by omega
        rw [sfApply_getCall_some, if_neg hstale, sfJoinOrStart_join]
  · intro r
    rw [sfApply_resolve_some]

/-- Witness for C8: one caller at time 0 starts fetch number 0; a
second caller at time 1 joins it; resolving delivers the same set to
both. -/
theorem C8_single_flight_fetch_witness :
    timeMonoFrom 0 [SFAction.getCall 0 0]
    ∧ (sfRun [SFAction.getCall 0 0]).fetchPromise = some 0
    ∧ (sfRun [SFAction.getCall 0 0]).clock ≤ 1
    ∧ (sfApply (sfRun [SFAction.getCall 0 0]) (SFAction.getCall 1 1)
        = { sfRun [SFAction.getCall 0 0] with
              waiting := (sfRun [SFAction.getCall 0 0]).waiting ++ [(1, 0)]
              clock := 1 }
      ∧ ∀ spawnResult,
          sfApply (sfRun [SFAction.getCall 0 0]) (SFAction.fetchResolve spawnResult)
            = { sfRun [SFAction.getCall 0 0] with
                  narrators := some (fetchNarrators spawnResult)
                  lastFetch := (sfRun [SFAction.getCall 0 0]).fetchStart
                  fetchPromise := none
                  waiting := (sfRun [SFAction.getCall 0 0]).waiting.filter
                    (fun p => p.2 != 0)
                  delivered := (sfRun [SFAction.getCall 0 0]).delivered
                    ++ ((sfRun [SFAction.getCall 0 0]).waiting.filter
                          (fun p => p.2 == 0)).map
                        (fun p => (p.1, some 0, fetchNarrators spawnResult)) }) :=
  ⟨⟨Nat.le_refl 0, trivial⟩, rfl, by decide,
   C8_single_flight_fetch [SFAction.getCall 0 0] 1 1 0
     ⟨Nat.le_refl 0, trivial⟩ rfl (by decide)⟩

/-! ## TempFileManager (src/src/temp-file-manager.ts)

The tracker's `Set<string>` of created paths and the filesystem's set
of existing paths are both modelled as duplicate-free membership
lists; `Set.delete`/`unlink` remove the element, modelled by filtering
it out. -/

/-- The tracked temp paths of a `TempFileManager`. -/
structure TempFileManager where
  tempFiles : List String
deriving DecidableEq, Repr

/-- The set of paths that currently exist on disk. -/
structure FileSystem where
  files : List String
deriving DecidableEq, Repr

/-- `fs.unlink(p)` (Node): delete the file, or fail with `ENOENT` when
it does not exist. -/
def unlink (fs : FileSystem) (p : String) : Except String FileSystem :=
  if p ∈ fs.files then Except.ok ⟨fs.files.filter (fun q => q != p)⟩
  else Except.error "ENOENT"

/-- `create` (temp-file-manager.ts lines 27-34): build a unique path
from the temp directory, the prefix, a timestamp and a UUID, record it
as tracked, and return it — without touching the filesystem (the
external engine creates the file).  `CONFIG.TEMP_FILE.EXTENSION` is
`".wav"`. -/
def createTempFile (m : TempFileManager) (tempDir pfx : String) (timestamp : Nat)
    (uuid : String) : TempFileManager × String :=
  let fileName := pfx ++ "-" ++ toString timestamp ++ "-" ++ uuid ++ ".wav"
  let tempPath := tempDir ++ "/" ++ fileName
  (⟨if tempPath ∈ m.tempFiles then m.tempFiles else m.tempFiles ++ [tempPath]⟩, tempPath)

/-- `cleanup` (temp-file-manager.ts lines 36-52): an untracked path is
ignored outright ("Not our file, don't touch it"); a tracked path is
unlinked and untracked, with any unlink failure caught — an `ENOENT`
(file already gone) silently, anything else with a logged message —
and the path untracked regardless.  The third component records
whether the error branch logged. -/
def cleanup (m : TempFileManager) (fs : FileSystem) (filePath : String) :
    TempFileManager × FileSystem × Bool :=
  if filePath ∈ m.tempFiles then
    match unlink fs filePath with
    | .ok fs' => (⟨m.tempFiles.filter (fun q => q != filePath)⟩, fs', false)
    | .error e => (⟨m.tempFiles.filter (fun q => q != filePath)⟩, fs, e != "ENOENT")
  else (m, fs, false)

/-- **C9.** `cleanup(p)` deletes and untracks `p` only when the
tracker itself created (tracks) `p`: on any untracked path — an
existing externally supplied file included — it is a silent no-op
leaving tracker and filesystem unchanged; on a tracked path the file
is removed from disk and the path untracked; a tracked but
already-gone file raises no error and logs nothing; and any call that
changes the filesystem was for a tracked path. -/
theorem C9_cleanup_only_tracked_paths (m : TempFileManager) (fs : FileSystem) (p : String) :
    (p ∉ m.tempFiles → cleanup m fs p = (m, fs, false))
    ∧ (p ∈ m.tempFiles →
        (cleanup m fs p).2.1.files = fs.files.filter (fun q => q != p)
        ∧ p ∉ (cleanup m fs p).1.tempFiles)
    ∧ (p ∈ m.tempFiles → p ∉ fs.files →
        (cleanup m fs p).2.2 = false ∧ (cleanup m fs p).2.1 = fs)
    ∧ ((cleanup m fs p).2.1 ≠ fs → p ∈ m.tempFiles) := by
  refine ⟨?_, ?_, ?_, ?_⟩
  · intro hnm
    simp [cleanup, hnm]
  · intro hm
    by_cases hfs : p ∈ fs.files
    · constructor
      · simp [cleanup, hm, unlink, hfs]
      · simp [cleanup, hm, unlink, hfs]
    · constructor
      · rw [List.filter_eq_self.mpr]
        · simp [cleanup, hm, unlink, hfs]
        · intro q hq
          simp only [bne_iff_ne, ne_eq]
          intro hqp
          exact hfs (hqp ▸ hq)
      · simp [cleanup, hm, unlink, hfs]
  · intro hm hfs
    constructor
    · simp [cleanup, hm, unlink, hfs]
    · simp [cleanup, hm, unlink, hfs]
  · intro hch
    by_contra hnm
    exact hch (by simp [cleanup, hnm])

/-- Witness for C9: tracker tracking `/tmp/a.wav` while `/tmp/a.wav`
and the external `/tmp/user.wav` exist: cleaning the tracked path
removes it, cleaning the external path is a no-op, and cleaning a
tracked-but-gone path errors nowhere. -/
theorem C9_cleanup_only_tracked_paths_witness :
    ("/tmp/user.wav" ∉ (⟨["/tmp/a.wav", "/tmp/gone.wav"]⟩ : TempFileManager).tempFiles
      → cleanup ⟨["/tmp/a.wav", "/tmp/gone.wav"]⟩ ⟨["/tmp/a.wav", "/tmp/user.wav"]⟩
          "/tmp/user.wav"
        = (⟨["/tmp/a.wav", "/tmp/gone.wav"]⟩, ⟨["/tmp/a.wav", "/tmp/user.wav"]⟩, false))
    ∧ ("/tmp/user.wav" ∉ (⟨["/tmp/a.wav", "/tmp/gone.wav"]⟩ : TempFileManager).tempFiles)
    ∧ ("/tmp/a.wav" ∈ (⟨["/tmp/a.wav", "/tmp/gone.wav"]⟩ : TempFileManager).tempFiles
        ∧ (cleanup ⟨["/tmp/a.wav", "/tmp/gone.wav"]⟩ ⟨["/tmp/a.wav", "/tmp/user.wav"]⟩
            "/tmp/a.wav").2.1.files
          = ["/tmp/a.wav", "/tmp/user.wav"].filter (fun q => q != "/tmp/a.wav")
        ∧ "/tmp/a.wav" ∉ (cleanup ⟨["/tmp/a.wav", "/tmp/gone.wav"]⟩
            ⟨["/tmp/a.wav", "/tmp/user.wav"]⟩ "/tmp/a.wav").1.tempFiles)
    ∧ ((cleanup ⟨["/tmp/a.wav", "/tmp/gone.wav"]⟩ ⟨["/tmp/a.wav", "/tmp/user.wav"]⟩
          "/tmp/gone.wav").2.2 = false
        ∧ (cleanup ⟨["/tmp/a.wav", "/tmp/gone.wav"]⟩ ⟨["/tmp/a.wav", "/tmp/user.wav"]⟩
            "/tmp/gone.wav").2.1 = ⟨["/tmp/a.wav", "/tmp/user.wav"]⟩) :=
  ⟨(C9_cleanup_only_tracked_paths ⟨["/tmp/a.wav", "/tmp/gone.wav"]⟩
      ⟨["/tmp/a.wav", "/tmp/user.wav"]⟩ "/tmp/user.wav").1,
   by decide,
   ⟨by decide,
    (C9_cleanup_only_tracked_paths ⟨["/tmp/a.wav", "/tmp/gone.wav"]⟩
      ⟨["/tmp/a.wav", "/tmp/user.wav"]⟩ "/tmp/a.wav").2.1 (by decide)⟩,
   (C9_cleanup_only_tracked_paths ⟨["/tmp/a.wav", "/tmp/gone.wav"]⟩
      ⟨["/tmp/a.wav", "/tmp/user.wav"]⟩ "/tmp/gone.wav").2.2.1 (by decide) (by decide)⟩

/-! ## The synthesis retry loop (src/unnamed/part_003, lines 702-735)

`synthesizeSafe` wraps one synthesis attempt (`runVoicePeak` followed
by `tempFileManager.ensureExists`) in a `for` loop with `MAX_RETRIES =
5` attempts and `RETRY_DELAY = 1000` ms between attempts.  The outcome
of the `n`-th attempt is given by an environment
`attemptOutcome : Nat → Except String Unit`; the error string is the
JS rendering of the thrown error as interpolated into the terminal
message.  A trace records the number of attempts executed, the list of
inter-attempt delays taken, and the final result. -/

instance {ε α : Type} [DecidableEq ε] [DecidableEq α] : DecidableEq (Except ε α) := fun a b =>
  match a, b with
  | .error e1, .error e2 =>
    if h : e1 = e2 then .isTrue (by rw [h])
    else .isFalse (fun hc => by cases hc; exact h rfl)
  | .error _, .ok _ => .isFalse (fun hc => by cases hc)
  | .ok _, .error _ => .isFalse (fun hc => by cases hc)
  | .ok a1, .ok a2 =>
    if h : a1 = a2 then .isTrue (by rw [h])
    else .isFalse (fun hc => by cases hc; exact h rfl)

/-- `MAX_RETRIES` (part_003 line 704). -/
def MAX_RETRIES : Nat := 5

/-- `RETRY_DELAY` (part_003 line 705): 1 second. -/
def RETRY_DELAY : Nat := 1000

/-- Trace of one `execute` invocation: attempts actually run, delays
awaited between attempts, final result. -/
structure RetryTrace where
  attemptsMade : Nat
  delays : List Nat
  result : Except VoicepeakError String
deriving DecidableEq, Repr

/-- The terminal message (part_003 line 720): embeds the retry bound
and the last underlying cause. -/
def synthFailedMessage (lastErr : String) : String :=
  "Failed to synthesize after " ++ toString MAX_RETRIES ++ " attempts: " ++ lastErr

/-- The `for (let attempt = 1; attempt <= MAX_RETRIES; attempt++)`
loop of `execute` (part_003 lines 707-729), as recursion on the number
of loop iterations left (`remaining = MAX_RETRIES + 1 - attempt` at
the top-level call): a successful attempt returns `outputFile` at
once; a failed final attempt throws the terminal `SYNTHESIS_FAILED`
error; a failed earlier attempt awaits `RETRY_DELAY` and continues.
The `remaining = 0` case is the unreachable fall-through after the
loop (part_003 lines 731-735). -/
def retryGo (attemptOutcome : Nat → Except String Unit) (outputFile : String) :
    Nat → Nat → RetryTrace
  | _, 0 =>
    ⟨0, [], Except.error ⟨"Unexpected error in synthesis retry logic",
      ErrorCode.SYNTHESIS_FAILED⟩⟩
  | attempt, r + 1 =>
    match attemptOutcome attempt with
    | .ok _ => ⟨1, [], Except.ok outputFile⟩
    | .error e =>
      if attempt = MAX_RETRIES then
        ⟨1, [], Except.error ⟨synthFailedMessage e, ErrorCode.SYNTHESIS_FAILED⟩⟩
      else
        let t := retryGo attemptOutcome outputFile (attempt + 1) r
        ⟨t.attemptsMade + 1, RETRY_DELAY :: t.delays, t.result⟩

/-- One invocation of `execute`: the loop entered at `attempt = 1`
with `MAX_RETRIES` iterations available — every invocation starts the
attempt counter afresh. -/
def executeSynthesis (attemptOutcome : Nat → Except String Unit)
    (outputFile : String) : RetryTrace :=
  retryGo attemptOutcome outputFile 1 MAX_RETRIES

/-- Whether an attempt outcome is a thrown error. -/
def isErr : Except String Unit → Bool
  | .error _ => true
  | .ok _ => false

/-- The thrown error's text (empty for a success). -/
def errText : Except String Unit → String
  | .error e => e
  | .ok _ => ""

lemma retryGo_shape (f : Nat → Except String Unit) (out : String) :
    ∀ remaining attempt, 1 ≤ remaining → attempt + remaining = MAX_RETRIES + 1 →
      1 ≤ (retryGo f out attempt remaining).attemptsMade
      ∧ (retryGo f out attempt remaining).attemptsMade ≤ remaining
      ∧ (retryGo f out attempt remaining).delays
          = List.replicate ((retryGo f out attempt remaining).attemptsMade - 1)
              RETRY_DELAY := by
  intro remaining
  induction remaining with
  | zero => intro attempt h1 _; omega
  | succ r ih =>
    intro attempt _ hsum
    cases hfa : f attempt with
    | ok u =>
      cases u
      simp [retryGo, hfa]
    | error e =>
      by_cases hmax : attempt = MAX_RETRIES
      · subst hmax
        simp [retryGo, hfa]
      · have hr : 1 ≤ r := by
          simp only [MAX_RETRIES] at hsum hmax ⊢
          omega
        obtain ⟨ih1, ih2, ih3⟩ := ih (attempt + 1) hr (by omega)
        simp only [retryGo, hfa, hmax, if_false]
        refine ⟨by omega, by omega, ?_⟩
        have ham : (retryGo f out (attempt + 1) r).attemptsMade + 1 - 1
            = ((retryGo f out (attempt + 1) r).attemptsMade - 1) + 1 := by omega
        rw [ham, List.replicate_succ, ih3]

lemma retryGo_exhaust (f : Nat → Except String Unit) (out : String) :
    ∀ remaining attempt, 1 ≤ remaining → attempt + remaining = MAX_RETRIES + 1 →
      (∀ i, attempt ≤ i → i ≤ MAX_RETRIES → isErr (f i) = true) →
      retryGo f out attempt remaining
        = ⟨remaining, List.replicate (remaining - 1) RETRY_DELAY,
            Except.error ⟨synthFailedMessage (errText (f MAX_RETRIES)),
              ErrorCode.SYNTHESIS_FAILED⟩⟩ := by
  intro remaining
  induction remaining with
  | zero => intro attempt h1 _ _; omega
  | succ r ih =>
    intro attempt _ hsum hall
    have hattempt : attempt ≤ MAX_RETRIES := by omega
    have herr := hall attempt (Nat.le_refl attempt) hattempt
    cases hfa : f attempt with
    | ok u => rw [hfa] at herr; simp [isErr] at herr
    | error e =>
      by_cases hmax : attempt = MAX_RETRIES
      · subst hmax
        have hrem : r = 0 := by omega
        subst hrem
        simp [retryGo, hfa, errText]
      · have hr : 1 ≤ r := by
          simp only [MAX_RETRIES] at hsum hmax ⊢
          omega
        have hrec := ih (attempt + 1) hr (by omega)
          (fun i hi1 hi2 => hall i (by omega) hi2)
        simp only [retryGo, hfa, hmax, if_false, hrec]
        have hrr : r + 1 - 1 = (r - 1) + 1 := by omega
        rw [hrr, List.replicate_succ]

lemma retryGo_first_success (f : Nat → Except String Unit) (out : String) (k : Nat)
    (hk : k ≤ MAX_RETRIES) (hok : isErr (f k) = false) :
    ∀ remaining attempt, attempt + remaining = MAX_RETRIES + 1 → attempt ≤ k →
      (∀ i, attempt ≤ i → i < k → isErr (f i) = true) →
      retryGo f out attempt remaining
        = ⟨k - attempt + 1, List.replicate (k - attempt) RETRY_DELAY,
            Except.ok out⟩ := by
  intro remaining
  induction remaining with
  | zero => intro attempt hsum hak _; omega
  | succ r ih =>
    intro attempt hsum hak hbefore
    by_cases hek : attempt = k
    · subst hek
      cases hfa : f attempt with
      | error e => rw [hfa] at hok; simp [isErr] at hok
      | ok u =>
        cases u
        have : attempt - attempt = 0 := by omega
        simp [retryGo, hfa, this]
    · have hlt : attempt < k := by omega
      have herr := hbefore attempt (Nat.le_refl attempt) hlt
      cases hfa : f attempt with
      | ok u => rw [hfa] at herr; simp [isErr] at herr
      | error e =>
        have hmax : ¬ (attempt = MAX_RETRIES) := by omega
        have hrec := ih (attempt + 1) (by omega) (by omega)
          (fun i hi1 hi2 => hbefore i (by omega) hi2)
        simp only [retryGo, hfa, hmax, if_false, hrec]
        have h1 : k - (attempt + 1) + 1 + 1 = k - attempt + 1 := by omega
        have h2 : k - attempt = (k - (attempt + 1)) + 1 := by omega
        rw [h1, h2, List.replicate_succ]

/-- **C6.** The retry loop of `execute`: every invocation enters the
loop at attempt 1 (the counter is not shared across invocations); at
most 5 attempts run, with exactly one fixed 1000 ms delay between
consecutive attempts; if all 5 attempts fail the result is a terminal
`SYNTHESIS_FAILED` error whose message embeds the last (5th) attempt's
underlying cause; and a first success at attempt `k` short-circuits —
exactly `k` attempts run and the result is the output file. -/
theorem C6_retry_five_attempts (f : Nat → Except String Unit) (out : String) :
    executeSynthesis f out = retryGo f out 1 MAX_RETRIES
    ∧ MAX_RETRIES = 5
    ∧ RETRY_DELAY = 1000
    ∧ (executeSynthesis f out).attemptsMade ≤ 5
    ∧ (executeSynthesis f out).delays
        = List.replicate ((executeSynthesis f out).attemptsMade - 1) 1000
    ∧ ((∀ i, 1 ≤ i → i ≤ 5 → isErr (f i) = true) →
        executeSynthesis f out
          = ⟨5, List.replicate 4 1000,
              Except.error ⟨synthFailedMessage (errText (f 5)),
                ErrorCode.SYNTHESIS_FAILED⟩⟩)
    ∧ (∀ k, 1 ≤ k → k ≤ 5 → isErr (f k) = false →
        (∀ i, 1 ≤ i → i < k → isErr (f i) = true) →
        executeSynthesis f out
          = ⟨k, List.replicate (k - 1) 1000, Except.ok out⟩) := by
  have hshape := retryGo_shape f out MAX_RETRIES 1 (by norm_num [MAX_RETRIES]) (by omega)
  refine ⟨rfl, rfl, rfl, ?_, ?_, ?_, ?_⟩
  · exact le_trans hshape.2.1 (by norm_num [MAX_RETRIES])
  · exact hshape.2.2
  · intro hall
    exact retryGo_exhaust f out MAX_RETRIES 1 (by norm_num [MAX_RETRIES]) (by omega)
      (fun i hi1 hi2 => hall i hi1 hi2)
  · intro k hk1 hk5 hok hbefore
    have := retryGo_first_success f out k hk5 hok MAX_RETRIES 1 (by omega) hk1
      (fun i hi1 hi2 => hbefore i hi1 hi2)
    rw [executeSynthesis, this]
    have h1 : k - 1 + 1 = k := by omega
    rw [h1]
    rfl

/-- Witness for C6: a run whose attempts all fail exhausts exactly 5
attempts with 4 delays and the terminal error embedding the last
cause; a run failing twice then succeeding stops after exactly 3
attempts with the output file. -/
theorem C6_retry_five_attempts_witness :
    ((∀ i, 1 ≤ i → i ≤ 5 →
        isErr ((fun _ => Except.error "boom") i) = true)
      ∧ executeSynthesis (fun _ => Except.error "boom") "out.wav"
          = ⟨5, List.replicate 4 1000,
              Except.error ⟨synthFailedMessage "boom", ErrorCode.SYNTHESIS_FAILED⟩⟩)
    ∧ ((1 : Nat) ≤ 3 ∧ (3 : Nat) ≤ 5
      ∧ isErr ((fun n => if n < 3 then Except.error "transient" else Except.ok ()) 3)
          = false
      ∧ (∀ i, 1 ≤ i → i < 3 →
          isErr ((fun n => if n < 3 then Except.error "transient" else Except.ok ()) i)
            = true)
      ∧ executeSynthesis (fun n => if n < 3 then Except.error "transient"
            else Except.ok ()) "out.wav"
          = ⟨3, List.replicate 2 1000, Except.ok "out.wav"⟩) :=
  ⟨⟨fun i hi1 hi2 => rfl,
    (C6_retry_five_attempts (fun _ => Except.error "boom") "out.wav").2.2.2.2.2.1
      (fun i hi1 hi2 => rfl)⟩,
   ⟨by norm_num, by norm_num, rfl,
    fun i hi1 hi2 => by interval_cases i <;> rfl,
    (C6_retry_five_attempts
        (fun n => if n < 3 then Except.error "transient" else Except.ok ())
        "out.wav").2.2.2.2.2.2 3 (by norm_num) (by norm_num) rfl
      (fun i hi1 hi2 => by interval_cases i <;> rfl)⟩⟩
